import Mathlib

/-!
Verification of the vLLM tool-call proxy (scripts/vllm-tool-proxy.py).

The development shallowly embeds the proxy's pure core: the JSON values the
proxy manipulates, Python's json.loads / json.dumps on the fragment the proxy
exercises, the tool-call extractor, the response normalizer, the SSE emitter,
the loop guard and the request dispatcher.  Theorems at the end settle the
frozen claims about this code.

Modelling conventions, stated once here and referenced from the definitions:
- Python dicts are association lists with unique keys (json.loads deduplicates
  by last-wins assignment, exactly as Python dict construction does);
  `dict.pop` and `dict[k] = v` become `removeKeys` and `objSet`.
- JSON numeric literals are modelled as integers; floating-point literals are
  outside the modelled fragment (the parser rejects them where Python would
  build a float).  No claim exercises floats.
- `uuid.uuid4()` call-identifier generation is modelled by the abstract
  injective supply `freshId`; no claim depends on identifier values.
- Code paths that raise in Python and are swallowed by a blanket
  `try/except` (e.g. a non-dict where the code does `.pop`) are outside the
  well-formedness predicates under which the theorems are stated.
-/

/-- JSON value as manipulated by the proxy.  Objects are association lists in
insertion order, mirroring Python dict semantics. -/
inductive Json where
  | null
  | bool (b : Bool)
  | num (n : Int)
  | str (s : String)
  | arr (xs : List Json)
  | obj (kvs : List (String × Json))
deriving Repr

/-- Python truthiness on JSON values (`if x:`). -/
def pyTruthy : Json → Bool
  | .null => false
  | .bool b => b
  | .num n => n != 0
  | .str s => s != ""
  | .arr xs => !xs.isEmpty
  | .obj kvs => !kvs.isEmpty

/-- Python `dict.get(key)`: first binding of the key (keys are unique). -/
def objGet : List (String × Json) → String → Option Json
  | [], _ => none
  | (k, v) :: rest, key => if k = key then some v else objGet rest key

/-- Python `key in dict`. -/
def hasKey (kvs : List (String × Json)) (key : String) : Bool :=
  (objGet kvs key).isSome

/-- Python `dict[key] = v`: replace the binding in place when present
(a Python dict keeps the key's original position), append otherwise. -/
def objSet : List (String × Json) → String → Json → List (String × Json)
  | [], key, v => [(key, v)]
  | kv :: rest, key, v =>
    if kv.1 = key then (key, v) :: rest else kv :: objSet rest key v

/-- Sequence of Python `dict.pop(k, None)` calls, one per key in `ks`. -/
def removeKeys (ks : List String) (kvs : List (String × Json)) : List (String × Json) :=
  kvs.filter (fun kv => !(ks.contains kv.1))

/-- Lower-case hexadecimal digit, as CPython's json encoder emits. -/
def hexDigit (n : Nat) : Char :=
  if n < 10 then Char.ofNat (48 + n) else Char.ofNat (87 + n)

/-- One \uXXXX escape. -/
def uEscape (n : Nat) : List Char :=
  ['\\', 'u', hexDigit (n / 4096 % 16), hexDigit (n / 256 % 16),
   hexDigit (n / 16 % 16), hexDigit (n % 16)]

/-- Escaping of one character by json.dumps with its default ensure_ascii:
the named short escapes, then \uXXXX for remaining control and non-ASCII
characters (surrogate pairs above U+FFFF), printable ASCII verbatim. -/
def escapeChar (c : Char) : List Char :=
  if c = '"' then ['\\', '"']
  else if c = '\\' then ['\\', '\\']
  else if c = '\n' then ['\\', 'n']
  else if c = '\r' then ['\\', 'r']
  else if c = '\t' then ['\\', 't']
  else if c = '\x08' then ['\\', 'b']
  else if c = '\x0c' then ['\\', 'f']
  else if 0x20 ≤ c.toNat && c.toNat ≤ 0x7e then [c]
  else if c.toNat ≤ 0xffff then uEscape c.toNat
  else uEscape (0xd800 + (c.toNat - 0x10000) / 0x400) ++
       uEscape (0xdc00 + (c.toNat - 0x10000) % 0x400)

/-- JSON string literal as json.dumps writes it. -/
def quoteStr (s : String) : String :=
  String.mk ('"' :: s.data.foldr (fun c acc => escapeChar c ++ acc) ['"'])

mutual

/-- Serializer mirroring Python json.dumps with the default separators
(", " between items, ": " after keys) and default ensure_ascii. -/
def dumps : Json → String
  | .null => "null"
  | .bool true => "true"
  | .bool false => "false"
  | .num n => toString n
  | .str s => quoteStr s
  | .arr xs => "[" ++ dumpsItems xs ++ "]"
  | .obj kvs => "\x7b" ++ dumpsMembers kvs ++ "\x7d"

/-- Array items joined by ", ". -/
def dumpsItems : List Json → String
  | [] => ""
  | [x] => dumps x
  | x :: y :: xs => dumps x ++ ", " ++ dumpsItems (y :: xs)

/-- Object members joined by ", ", each key and value separated by ": ". -/
def dumpsMembers : List (String × Json) → String
  | [] => ""
  | [(k, v)] => quoteStr k ++ ": " ++ dumps v
  | (k, v) :: p :: xs => quoteStr k ++ ": " ++ dumps v ++ ", " ++ dumpsMembers (p :: xs)

end

/-- Whitespace skipped by Python's json parser. -/
def isJsonWs (c : Char) : Bool :=
  c = ' ' || c = '\t' || c = '\n' || c = '\r'

/-- Drop leading JSON whitespace. -/
def skipWs : List Char → List Char
  | [] => []
  | c :: cs => if isJsonWs c then skipWs cs else c :: cs

/-- Value of a hexadecimal digit character. -/
def hexVal (c : Char) : Option Nat :=
  if '0' ≤ c ∧ c ≤ '9' then some (c.toNat - 48)
  else if 'a' ≤ c ∧ c ≤ 'f' then some (c.toNat - 87)
  else if 'A' ≤ c ∧ c ≤ 'F' then some (c.toNat - 55)
  else none

/-- Four hexadecimal digits. -/
def hex4 (a b c d : Char) : Option Nat := do
  let x ← hexVal a
  let y ← hexVal b
  let z ← hexVal c
  let w ← hexVal d
  pure (4096 * x + 256 * y + 16 * z + w)

/-- Body of a JSON string literal, after the opening quote: returns the decoded
characters and the input following the closing quote.  Handles the named
escapes, \uXXXX and surrogate pairs; raw control characters are rejected as in
Python's default strict mode. -/
def parseStringRest : Nat → List Char → Option (List Char × List Char)
  | 0, _ => none
  | _ + 1, [] => none
  | fuel + 1, c :: cs =>
    if c = '"' then some ([], cs)
    else if c = '\\' then
      match cs with
      | 'u' :: h1 :: h2 :: h3 :: h4 :: cs2 => do
        let n ← hex4 h1 h2 h3 h4
        if 0xd800 ≤ n ∧ n < 0xdc00 then
          match cs2 with
          | '\\' :: 'u' :: g1 :: g2 :: g3 :: g4 :: cs3 => do
            let m ← hex4 g1 g2 g3 g4
            if 0xdc00 ≤ m ∧ m < 0xe000 then do
              let sr ← parseStringRest fuel cs3
              pure (Char.ofNat (0x10000 + (n - 0xd800) * 0x400 + (m - 0xdc00)) :: sr.1, sr.2)
            else none
          | _ => none
        else do
          let sr ← parseStringRest fuel cs2
          pure (Char.ofNat n :: sr.1, sr.2)
      | e :: cs2 => do
        let d ← (if e = '"' then some '"'
                 else if e = '\\' then some '\\'
                 else if e = '/' then some '/'
                 else if e = 'b' then some '\x08'
                 else if e = 'f' then some '\x0c'
                 else if e = 'n' then some '\n'
                 else if e = 'r' then some '\r'
                 else if e = 't' then some '\t'
                 else none)
        let sr ← parseStringRest fuel cs2
        pure (d :: sr.1, sr.2)
      | [] => none
    else if c.toNat < 0x20 then none
    else do
      let sr ← parseStringRest fuel cs
      pure (c :: sr.1, sr.2)

/-- Longest digit run at the head of the input. -/
def takeDigits : List Char → List Char × List Char
  | [] => ([], [])
  | c :: cs =>
    if c.isDigit then
      let dr := takeDigits cs
      (c :: dr.1, dr.2)
    else ([], c :: cs)

/-- Natural number denoted by a digit run. -/
def digitsToNat (ds : List Char) : Nat :=
  ds.foldl (fun n c => 10 * n + (c.toNat - 48)) 0

/-- Integer literal of JSON: optional minus, no leading zeros.  A literal that
Python would continue into a float ('.', 'e', 'E' follows) is rejected here:
floats are outside the modelled fragment. -/
def parseNumber (cs : List Char) : Option (Json × List Char) :=
  let nr : Bool × List Char := match cs with
    | '-' :: rest => (true, rest)
    | _ => (false, cs)
  match takeDigits nr.2 with
  | ([], _) => none
  | (ds, rest) =>
    if 1 < ds.length && ds.headD '0' = '0' then none
    else match rest with
      | '.' :: _ => none
      | 'e' :: _ => none
      | 'E' :: _ => none
      | _ =>
        let n : Int := Int.ofNat (digitsToNat ds)
        some (.num (if nr.1 then -n else n), rest)

mutual

/-- Recursive-descent JSON value parser (fuel-indexed so every definition
computes by structural recursion).  Mirrors Python json.loads on the modelled
fragment. -/
def parseVal : Nat → List Char → Option (Json × List Char)
  | 0, _ => none
  | fuel + 1, cs0 =>
    match skipWs cs0 with
    | [] => none
    | '\x7b' :: rest =>
      (match skipWs rest with
       | '\x7d' :: rest2 => some (.obj [], rest2)
       | rest2 => parseMembers fuel rest2 [])
    | '[' :: rest =>
      (match skipWs rest with
       | ']' :: rest2 => some (.arr [], rest2)
       | rest2 => parseItems fuel rest2 [])
    | '"' :: rest =>
      (match parseStringRest (rest.length + 1) rest with
       | some (s, r) => some (.str (String.mk s), r)
       | none => none)
    | 't' :: 'r' :: 'u' :: 'e' :: rest => some (.bool true, rest)
    | 'f' :: 'a' :: 'l' :: 's' :: 'e' :: rest => some (.bool false, rest)
    | 'n' :: 'u' :: 'l' :: 'l' :: rest => some (.null, rest)
    | c :: rest =>
      if c = '-' || c.isDigit then parseNumber (c :: rest) else none

/-- Array items after the opening bracket (first item not yet read). -/
def parseItems : Nat → List Char → List Json → Option (Json × List Char)
  | 0, _, _ => none
  | fuel + 1, cs, acc =>
    match parseVal fuel cs with
    | none => none
    | some (v, rest) =>
      match skipWs rest with
      | ',' :: rest2 => parseItems fuel rest2 (acc ++ [v])
      | ']' :: rest2 => some (.arr (acc ++ [v]), rest2)
      | _ => none

/-- Object members after the opening brace (first key not yet read).  Repeated
keys overwrite in place, as Python dict construction does. -/
def parseMembers : Nat → List Char → List (String × Json) → Option (Json × List Char)
  | 0, _, _ => none
  | fuel + 1, cs, acc =>
    match skipWs cs with
    | '"' :: rest =>
      (match parseStringRest (rest.length + 1) rest with
       | some (k, rest2) =>
         (match skipWs rest2 with
          | ':' :: rest3 =>
            (match parseVal fuel rest3 with
             | none => none
             | some (v, rest4) =>
               let acc2 := objSet acc (String.mk k) v
               match skipWs rest4 with
               | ',' :: rest5 => parseMembers fuel rest5 acc2
               | '\x7d' :: rest5 => some (.obj acc2, rest5)
               | _ => none)
          | _ => none)
       | none => none)
    | _ => none

end

/-- Python json.loads on the modelled fragment: a single value with nothing but
whitespace around it.  The fuel bound dominates the recursion depth of any
input of this length. -/
def loads (s : String) : Option Json :=
  match parseVal (2 * s.length + 4) s.data with
  | some (j, rest) => if skipWs rest = [] then some j else none
  | none => none

/-- Whitespace stripped by Python str.strip(): the six ASCII whitespace
characters (non-ASCII whitespace does not occur in the modelled traffic). -/
def isPyWs (c : Char) : Bool :=
  c = ' ' || c = '\t' || c = '\n' || c = '\r' || c = '\x0b' || c = '\x0c'

/-- Python str.strip(). -/
def pyStrip (s : String) : String :=
  String.mk (((s.data.dropWhile isPyWs).reverse.dropWhile isPyWs).reverse)

/-- Python str.split for a single newline separator, keeping empty pieces. -/
def splitNl : List Char → List (List Char)
  | [] => [[]]
  | c :: cs =>
    if c = '\n' then [] :: splitNl cs
    else
      match splitNl cs with
      | l :: ls => (c :: l) :: ls
      | [] => [[c]]

/-- Python content.split(chr(10)) on strings. -/
def pySplitLines (s : String) : List String :=
  (splitNl s.data).map String.mk

example : loads "\x7b\"a\": 1, \"b\": [true, null]\x7d" =
    some (.obj [("a", .num 1), ("b", .arr [.bool true, .null])]) := rfl
example : loads "\x7b\"name\":\"get_weather\",\"arguments\":\x7b\"city\":\"Austin\"\x7d\x7d" =
    some (.obj [("name", .str "get_weather"),
                ("arguments", .obj [("city", .str "Austin")])]) := rfl
example : loads "01" = none := rfl
example : loads "" = none := rfl
example : loads "\x7b\x7d extra" = none := rfl
example : dumps (.obj [("city", .str "Austin")]) = "\x7b\"city\": \"Austin\"\x7d" := rfl
example : dumps (.obj []) = "\x7b\x7d" := rfl
example : dumps (.arr [.num (-3), .str "a\nb"]) = "[-3, \"a\\nb\"]" := rfl
example : pyStrip "  a b \n" = "a b" := rfl
example : pySplitLines "a\nb" = ["a", "b"] := rfl
example : pySplitLines "" = [""] := rfl

/-- Literal pattern match at the head of the input. -/
def startsWithList : List Char → List Char → Bool
  | [], _ => true
  | _ :: _, [] => false
  | p :: ps, c :: cs => p = c && startsWithList ps cs

/-- Split at the first occurrence of a literal pattern: text before the
occurrence and text after it.  None when the pattern does not occur. -/
def splitOnce (pat : List Char) : List Char → Option (List Char × List Char)
  | [] => if pat.isEmpty then some ([], []) else none
  | c :: cs =>
    if startsWithList pat (c :: cs) then some ([], (c :: cs).drop pat.length)
    else
      match splitOnce pat cs with
      | some pr => some (c :: pr.1, pr.2)
      | none => none

/-- Opening tag of the TOOLS_REGEX pattern. -/
def tagOpen : List Char := "<tools>".data

/-- Closing tag of the TOOLS_REGEX pattern. -/
def tagClose : List Char := "</tools>".data

/-- Captures of TOOLS_REGEX.findall: the non-greedy DOTALL pattern captures,
from each opening tag onward, everything up to the nearest closing tag, and
scanning resumes after that closing tag. -/
def toolsFindallAux : Nat → List Char → List String
  | 0, _ => []
  | fuel + 1, cs =>
    match splitOnce tagOpen cs with
    | none => []
    | some pr =>
      match splitOnce tagClose pr.2 with
      | none => []
      | some qr => String.mk qr.1 :: toolsFindallAux fuel qr.2

/-- TOOLS_REGEX.findall(content). -/
def toolsFindall (s : String) : List String :=
  toolsFindallAux (s.length + 1) s.data

/-- Text remaining after TOOLS_REGEX.sub(removing each matched span). -/
def toolsSubAux : Nat → List Char → List Char
  | 0, cs => cs
  | fuel + 1, cs =>
    match splitOnce tagOpen cs with
    | none => cs
    | some pr =>
      match splitOnce tagClose pr.2 with
      | none => cs
      | some qr => pr.1 ++ toolsSubAux fuel qr.2

/-- TOOLS_REGEX.sub(empty string, content). -/
def toolsSub (s : String) : String :=
  String.mk (toolsSubAux (s.length + 1) s.data)

/-- Structured tool call built by parse_single_tool_call: the dict
with keys id, type (always the string function) and function = name/arguments.
The name and arguments fields hold whatever JSON value the candidate carried
(the code does not force them to strings). -/
structure PyToolCall where
  id : String
  name : Json
  arguments : Json
deriving Repr

/-- Abstract supply of fresh call identifiers, modelling
chatcmpl-tool-uuid4.hex prefixes; no claim depends on the values. -/
def freshId (n : Nat) : String :=
  "chatcmpl-tool-" ++ toString n

/-- Embedding of parse_single_tool_call: strip the text, json-parse it, and
when it is an object carrying a name key, emit the call; dict-valued
arguments are serialized with json.dumps, every other arguments value is
kept as is.  The fresh identifier is passed in for the uuid4 call. -/
def parse_single_tool_call (fresh : String) (text : String) : Option PyToolCall :=
  let t := pyStrip text
  if t = "" then none
  else
    match loads t with
    | some (.obj kvs) =>
      (match objGet kvs "name" with
       | some nameVal =>
         let args := (objGet kvs "arguments").getD (.obj [])
         some { id := fresh, name := nameVal,
                arguments :=
                  match args with
                  | .obj akvs => .str (dumps (.obj akvs))
                  | other => other }
       | none => none)
    | _ => none

/-- Loop body shared by strategies 1 and 3: parse each line in order,
collecting the successes; the identifier counter advances only on success,
as uuid4 is only drawn inside the success branch. -/
def parseLinesFrom : Nat → List String → List PyToolCall
  | _, [] => []
  | k, l :: ls =>
    match parse_single_tool_call (freshId k) l with
    | some c => c :: parseLinesFrom (k + 1) ls
    | none => parseLinesFrom k ls

/-- Lines scanned by strategy 1: for each captured tag block in order, the
lines of the stripped capture. -/
def linesOfMatches : List String → List String
  | [] => []
  | m :: ms => pySplitLines (pyStrip m) ++ linesOfMatches ms

/-- Strategy 1 of extract_tools_from_content: tag extraction. -/
def taggedCalls (content : String) : List PyToolCall :=
  parseLinesFrom 0 (linesOfMatches (toolsFindall content))

/-- Embedding of the per-message body of extract_tools_from_content
(the strategy cascade and the content cleaning): returns the extracted calls
and the new content value, None standing for Python None.  When no strategy
yields a call the message is left untouched, rendered here as the original
content. -/
def extract_from_content (content : String) : List PyToolCall × Option String :=
  let s1 := taggedCalls content
  let calls :=
    if s1.isEmpty then
      match parse_single_tool_call (freshId 0) (pyStrip content) with
      | some c => [c]
      | none => parseLinesFrom 0 (pySplitLines (pyStrip content))
    else s1
  if calls.isEmpty then (calls, some content)
  else
    let cleaned := pyStrip (toolsSub content)
    let remaining := (pySplitLines cleaned).filter (fun l => !(parse_single_tool_call "" l).isSome)
    let cleaned2 := pyStrip (String.intercalate "\n" remaining)
    (calls, if cleaned2 = "" then none else some cleaned2)

/-- Dict shape of an extracted call as stored into the message. -/
def pyToolCallToJson (c : PyToolCall) : Json :=
  .obj [("id", .str c.id), ("type", .str "function"),
        ("function", .obj [("name", c.name), ("arguments", c.arguments)])]

/-- Per-choice step of extract_tools_from_content: skip choices that already
carry tool calls or whose content is blank; otherwise run the extraction and,
when it produced calls, store the residual content (None when fully consumed),
the structured calls, and the tool_calls finish reason.  A truthy non-string
content raises in Python and is outside the modelled domain. -/
def extractChoice (c : Json) : Json :=
  match c with
  | .obj kvs =>
    (match objGet kvs "message" with
     | some (.obj mkvs) =>
       let content := match (objGet mkvs "content").getD (.str "") with
         | .str s => s
         | _ => ""
       let tcs := (objGet mkvs "tool_calls").getD .null
       if pyTruthy tcs || pyStrip content = "" then c
       else
         let er := extract_from_content content
         if er.1.isEmpty then c
         else
           let mkvs2 := objSet mkvs "content"
             (match er.2 with | some s => .str s | none => .null)
           let mkvs3 := objSet mkvs2 "tool_calls" (.arr (er.1.map pyToolCallToJson))
           let kvs2 := objSet kvs "message" (.obj mkvs3)
           .obj (objSet kvs2 "finish_reason" (.str "tool_calls"))
     | _ => c)
  | _ => c

/-- Embedding of extract_tools_from_content over the whole response object. -/
def extract_tools_from_content (j : Json) : Json :=
  match j with
  | .obj kvs =>
    (match objGet kvs "choices" with
     | some (.arr cs) => .obj (objSet kvs "choices" (.arr (cs.map extractChoice)))
     | _ => j)
  | _ => j

example : parse_single_tool_call (freshId 0)
    "\x7b\"name\":\"get_weather\",\"arguments\":\x7b\"city\":\"Austin\"\x7d\x7d" =
    some { id := "chatcmpl-tool-0", name := .str "get_weather",
           arguments := .str "\x7b\"city\": \"Austin\"\x7d" } := rfl
example : parse_single_tool_call (freshId 0) "not json" = none := rfl
example : parse_single_tool_call (freshId 0) "\x7b\"arguments\": 1\x7d" = none := rfl
example : toolsFindall "a<tools>X</tools>b<tools>Y</tools>" = ["X", "Y"] := rfl
example : toolsSub "a<tools>X</tools>b<tools>Y</tools>" = "ab" := rfl
example : toolsFindall "<tools><tools>x</tools>" = ["<tools>x"] := rfl
example :
    extract_from_content "<tools>\x7b\"name\":\"f\",\"arguments\":\x7b\x7d\x7d</tools>" =
    ([{ id := "chatcmpl-tool-0", name := .str "f", arguments := .str "\x7b\x7d" }], none) := rfl
example : (extract_from_content "The weather in Austin is sunny.").1 = [] := rfl

/-- Top-level vLLM-specific fields stripped by clean_response_for_openclaw,
in pop order. -/
def topStripKeys : List String :=
  ["prompt_logprobs", "prompt_token_ids", "kv_transfer_params",
   "service_tier", "system_fingerprint"]

/-- Choice-level fields stripped by clean_response_for_openclaw. -/
def choiceStripKeys : List String := ["stop_reason", "token_ids"]

/-- Message-level fields stripped by clean_response_for_openclaw. -/
def msgStripKeys : List String :=
  ["reasoning", "reasoning_content", "refusal", "annotations", "audio",
   "function_call"]

/-- Message step of the normalizer: strip the message-level fields, then pop
tool_calls whenever its value is falsy (absent, null, empty list, ...), so a
zero-call message never keeps the key. -/
def cleanMsg (m : Json) : Json :=
  match m with
  | .obj kvs =>
    let kvs1 := removeKeys msgStripKeys kvs
    .obj (if pyTruthy ((objGet kvs1 "tool_calls").getD .null) then kvs1
          else removeKeys ["tool_calls"] kvs1)
  | other => other

/-- Choice step of the normalizer: strip the choice-level fields and clean the
message in place when one is present. -/
def cleanChoice (c : Json) : Json :=
  match c with
  | .obj kvs =>
    let kvs1 := removeKeys choiceStripKeys kvs
    (match objGet kvs1 "message" with
     | some m => .obj (objSet kvs1 "message" (cleanMsg m))
     | none => .obj kvs1)
  | other => other

/-- Choices pass of clean_response_for_openclaw: the loop over
resp_json.get(choices, empty) cleans each choice dict in place. -/
def choicesStage (kvs : List (String × Json)) : List (String × Json) :=
  match objGet kvs "choices" with
  | some (.arr cs) => objSet kvs "choices" (.arr (cs.map cleanChoice))
  | _ => kvs

/-- Usage pass of clean_response_for_openclaw: a truthy usage dict loses its
prompt_tokens_details key. -/
def usageStage (kvs : List (String × Json)) : List (String × Json) :=
  match objGet kvs "usage" with
  | some u =>
    if pyTruthy u then
      match u with
      | .obj us => objSet kvs "usage" (.obj (removeKeys ["prompt_tokens_details"] us))
      | _ => kvs
    else kvs
  | none => kvs

/-- Embedding of clean_response_for_openclaw: strip the top-level fields, clean
each choice, and strip prompt_tokens_details from a truthy usage dict, in the
code's statement order.  Inputs on which the Python code would raise into its
blanket handler (non-dict choices or usage, a non-list choices value) are
outside the well-formedness predicate assumed by the theorems. -/
def clean_response_for_openclaw (j : Json) : Json :=
  match j with
  | .obj kvs => .obj (usageStage (choicesStage (removeKeys topStripKeys kvs)))
  | other => other

/-- Choice shapes on which the normalizer's Python code cannot raise. -/
def isWfChoice (c : Json) : Bool :=
  match c with
  | .obj kvs =>
    (match objGet kvs "message" with
     | none => true
     | some (.obj _) => true
     | some _ => false)
  | _ => false

/-- Response shapes on which the normalizer's Python code cannot raise: a dict
whose choices (when present) is a list of well-formed choices and whose usage
(when present) is a dict or falsy. -/
def isWfResponse (j : Json) : Bool :=
  match j with
  | .obj kvs =>
    (match objGet kvs "choices" with
     | none => true
     | some (.arr cs) => cs.all isWfChoice
     | some _ => false) &&
    (match objGet kvs "usage" with
     | none => true
     | some (.obj _) => true
     | some u => !pyTruthy u)
  | _ => false

/-- Structured tool call of the spec's data model: by the ToolCall invariant
the arguments of a call inside a CompletionResult are a JSON-encoded string. -/
structure ToolCall where
  id : String
  name : String
  arguments : String
deriving Repr, DecidableEq

/-- Output message shape: content may be absent (Python None), tool calls are
a possibly empty sequence (the emitter treats absent, null and empty alike). -/
structure AssistantMessage where
  content : Option String
  tool_calls : List ToolCall
deriving Repr, DecidableEq

/-- One choice of a materialized completion; finish_reason is optional because
the emitter substitutes stop when the key is missing. -/
structure CompletionChoice where
  message : AssistantMessage
  finish_reason : Option String
deriving Repr, DecidableEq

/-- Usage accounting block, carried verbatim by the emitter. -/
structure Usage where
  prompt_tokens : Nat
  completion_tokens : Nat
  total_tokens : Nat
deriving Repr, DecidableEq

/-- Materialized (non-streaming) completion result. -/
structure CompletionResult where
  id : String
  model : String
  created : Nat
  choices : List CompletionChoice
  usage : Option Usage
deriving Repr, DecidableEq

/-- Incremental tool-call fragment inside a chunk delta. -/
structure DeltaToolCall where
  index : Nat
  id : String
  name : String
  arguments : String
deriving Repr, DecidableEq

/-- Chunk delta: the emitter populates role/content in the first chunk,
content alone in the content chunk, tool_calls alone in tool-call chunks, and
nothing in the finish chunk. -/
structure Delta where
  role : Option String
  content : Option String
  tool_calls : Option (List DeltaToolCall)
deriving Repr, DecidableEq

/-- Choice entry of a chunk; the code always writes index 0. -/
structure ChunkChoice where
  index : Nat
  delta : Delta
  finish_reason : Option String
deriving Repr, DecidableEq

/-- One SSE chunk as built by convert_to_sse_stream (the data payload; the
SSE wire framing and the final DONE sentinel carry no fields and are not
modelled). -/
structure SSEChunk where
  id : String
  object : String
  created : Nat
  model : String
  choices : List ChunkChoice
  usage : Option Usage
deriving Repr, DecidableEq

/-- Chunk skeleton shared by every chunk the emitter yields. -/
def mkChunk (r : CompletionResult) (cs : List ChunkChoice) (u : Option Usage) : SSEChunk :=
  { id := r.id, object := "chat.completion.chunk", created := r.created,
    model := r.model, choices := cs, usage := u }

/-- Tool-call chunks of the emitter: one chunk per call, carrying the call's
index, id, name and full arguments in a single delta. -/
def toolCallChunks (r : CompletionResult) : Nat → List ToolCall → List SSEChunk
  | _, [] => []
  | i, tc :: rest =>
    mkChunk r [{ index := 0,
                 delta := { role := none, content := none,
                            tool_calls := some [{ index := i, id := tc.id,
                                                  name := tc.name,
                                                  arguments := tc.arguments }] },
                 finish_reason := none }] none
      :: toolCallChunks r (i + 1) rest

/-- Chunks the emitter yields for one choice: the role chunk (whose delta
carries an empty content string), a content chunk when content is truthy, the
tool-call chunks, and the finish chunk carrying finish_reason or stop. -/
def choiceChunks (r : CompletionResult) (c : CompletionChoice) : List SSEChunk :=
  let firstChunk := mkChunk r
    [{ index := 0,
       delta := { role := some "assistant", content := some "", tool_calls := none },
       finish_reason := none }] none
  let contentChunks := match c.message.content with
    | some s =>
      if s = "" then []
      else [mkChunk r [{ index := 0,
                         delta := { role := none, content := some s, tool_calls := none },
                         finish_reason := none }] none]
    | none => []
  let finishChunk := mkChunk r
    [{ index := 0,
       delta := { role := none, content := none, tool_calls := none },
       finish_reason := some (c.finish_reason.getD "stop") }] none
  firstChunk :: (contentChunks ++ toolCallChunks r 0 c.message.tool_calls ++ [finishChunk])

/-- Chunks for the whole choices list in order. -/
def choicesChunks (r : CompletionResult) : List CompletionChoice → List SSEChunk
  | [] => []
  | c :: cs => choiceChunks r c ++ choicesChunks r cs

/-- Embedding of convert_to_sse_stream: per-choice chunks followed by a usage
chunk when the result carries usage. -/
def convert_to_sse_stream (r : CompletionResult) : List SSEChunk :=
  choicesChunks r r.choices ++
  (match r.usage with
   | some u => [mkChunk r [] (some u)]
   | none => [])

/-- Content pieces carried by the deltas of a chunk's choice entries, in
order.  This and the other reassembled* definitions follow the spec's words
for reassembling a chunk sequence (concatenate each chunk's incremental delta
fields in order); they are the spec side of the round-trip claims, not code
from the source. -/
def contentDeltasOfChoices : List ChunkChoice → List String
  | [] => []
  | cc :: rest =>
    match cc.delta.content with
    | some s => s :: contentDeltasOfChoices rest
    | none => contentDeltasOfChoices rest

/-- Content pieces of a chunk sequence in order. -/
def contentDeltas : List SSEChunk → List String
  | [] => []
  | ch :: rest => contentDeltasOfChoices ch.choices ++ contentDeltas rest

/-- Reassembled message content: the concatenation of the content deltas, or
absent when no chunk carried a content delta at all. -/
def reassembledContent (chunks : List SSEChunk) : Option String :=
  match contentDeltas chunks with
  | [] => none
  | ds => some (String.join ds)

/-- Tool-call delta fragments of a chunk's choice entries, in order. -/
def tcDeltasOfChoices : List ChunkChoice → List DeltaToolCall
  | [] => []
  | cc :: rest => (cc.delta.tool_calls.getD []) ++ tcDeltasOfChoices rest

/-- Tool-call delta fragments of a chunk sequence, in order. -/
def toolCallDeltas : List SSEChunk → List DeltaToolCall
  | [] => []
  | ch :: rest => tcDeltasOfChoices ch.choices ++ toolCallDeltas rest

/-- Reassembled tool calls: each delta the emitter yields is a complete call
(one chunk per call, settled by the C2 theorems), so reassembly collects the
fragments in order. -/
def reassembledToolCalls (chunks : List SSEChunk) : List ToolCall :=
  (toolCallDeltas chunks).map (fun d => { id := d.id, name := d.name, arguments := d.arguments })

/-- Latest finish_reason carried by the choice entries, threaded left to
right. -/
def lastFinishOfChoices : List ChunkChoice → Option String → Option String
  | [], acc => acc
  | cc :: rest, acc =>
    lastFinishOfChoices rest (match cc.finish_reason with | some f => some f | none => acc)

/-- Reassembly accumulator for finish_reason over the chunk sequence. -/
def reassembledFinishAux : List SSEChunk → Option String → Option String
  | [], acc => acc
  | ch :: rest, acc => reassembledFinishAux rest (lastFinishOfChoices ch.choices acc)

/-- Reassembled finish_reason: the last one carried by any chunk. -/
def reassembledFinish (chunks : List SSEChunk) : Option String :=
  reassembledFinishAux chunks none

/-- Reassembly accumulator for usage over the chunk sequence. -/
def reassembledUsageAux : List SSEChunk → Option Usage → Option Usage
  | [], acc => acc
  | ch :: rest, acc =>
    reassembledUsageAux rest (match ch.usage with | some u => some u | none => acc)

/-- Reassembled usage: the last usage block carried by any chunk. -/
def reassembledUsage (chunks : List SSEChunk) : Option Usage :=
  reassembledUsageAux chunks none

/-- Conversation message as far as the loop guard reads it: its role and its
optional tool_call_id. -/
structure Message where
  role : String
  tool_call_id : Option String
deriving Repr, DecidableEq

/-- Predicate counted by count_tool_results: role tool, or a truthy
tool_call_id. -/
def isToolResult (m : Message) : Bool :=
  m.role == "tool" ||
  (match m.tool_call_id with
   | some s => s != ""
   | none => false)

/-- Embedding of count_tool_results. -/
def count_tool_results : List Message → Nat
  | [] => 0
  | m :: rest => (if isToolResult m then 1 else 0) + count_tool_results rest

/-- Chat-completion request body as far as the dispatcher reads it. -/
structure ChatBody where
  model : Option String
  messages : List Message
  tools : Option Json
  stream : Bool
deriving Repr

/-- Embedding of has_tools: the body carries a truthy tools value. -/
def has_tools (b : ChatBody) : Bool :=
  match b.tools with
  | some t => pyTruthy t
  | none => false

/-- Assistant content of the synthetic loop-abort completion (the f-string of
check_tool_loop with the tool count interpolated). -/
def abortContent (cnt : Nat) : String :=
  "Tool call safety limit reached (" ++ toString cnt ++ " calls). " ++
  "The conversation may be stuck in a loop. " ++
  "Try simplifying your request or starting a new session."

/-- Synthetic terminal completion returned when the guard fires. -/
def loopAbortResult (b : ChatBody) : CompletionResult :=
  { id := "chatcmpl-loop-abort",
    model := b.model.getD "unknown",
    created := 0,
    choices := [{ message := { content := some (abortContent (count_tool_results b.messages)),
                               tool_calls := [] },
                  finish_reason := some "stop" }],
    usage := none }

/-- Embedding of check_tool_loop with the ceiling as a parameter. -/
def check_tool_loop (maxToolCalls : Nat) (b : ChatBody) : Option CompletionResult :=
  if count_tool_results b.messages ≥ maxToolCalls then some (loopAbortResult b)
  else none

/-- Outcome of the dispatcher for a parsed chat-completion body: the loop
abort answered directly with its HTTP status, or one of the three forwarding
strategies. -/
inductive ProxyDecision where
  | loopAbort (status : Nat) (r : CompletionResult)
  | streamPassthrough
  | rewrapSSE
  | forwardBuffered
deriving Repr, DecidableEq

/-- Embedding of the dispatcher's control flow on a parsed body (proxy(),
lines 346-377): guard first when tools are declared, then the stream flag is
forced off when tools are present, and the strategy is picked from the forced
flag, the original flag and has_tools. -/
def proxyDecision (maxToolCalls : Nat) (b : ChatBody) : ProxyDecision :=
  match (if has_tools b then check_tool_loop maxToolCalls b else none) with
  | some r => .loopAbort 200 r
  | none =>
    let wasStreaming := b.stream
    let b1 := if has_tools b && wasStreaming then { b with stream := false } else b
    if b1.stream then .streamPassthrough
    else if wasStreaming && has_tools b1 then .rewrapSSE
    else .forwardBuffered

/-- Embedding of stream_response's happy path: every non-empty upstream chunk
is yielded unchanged, in order. -/
def stream_response_chunks (upstream : List String) : List String :=
  upstream.filter (fun c => c != "")

/-- Response body produced by forward_with_body_and_fix: when the upstream
body parses as JSON it is extracted (only if tools were declared), cleaned and
re-serialized; when parsing fails the upstream bytes are returned verbatim. -/
def forward_with_body_and_fix_body (toolsDeclared : Bool) (upstreamBody : String) : String :=
  match loads upstreamBody with
  | some j =>
    dumps (clean_response_for_openclaw
      (if toolsDeclared then extract_tools_from_content j else j))
  | none => upstreamBody

example :
    cleanMsg (.obj [("role", .str "assistant"), ("content", .str "hi"),
                    ("reasoning_content", .str "x"), ("tool_calls", .arr [])]) =
    .obj [("role", .str "assistant"), ("content", .str "hi")] := rfl
example :
    clean_response_for_openclaw (.obj [("system_fingerprint", .str "fp"), ("id", .str "x")]) =
    .obj [("id", .str "x")] := rfl
example :
    convert_to_sse_stream
      { id := "i", model := "m", created := 3,
        choices := [{ message := { content := some "hi", tool_calls := [] },
                      finish_reason := some "stop" }],
        usage := none } =
    [mkChunk { id := "i", model := "m", created := 3, choices := [], usage := none }
       [{ index := 0, delta := { role := some "assistant", content := some "", tool_calls := none },
          finish_reason := none }] none,
     mkChunk { id := "i", model := "m", created := 3, choices := [], usage := none }
       [{ index := 0, delta := { role := none, content := some "hi", tool_calls := none },
          finish_reason := none }] none,
     mkChunk { id := "i", model := "m", created := 3, choices := [], usage := none }
       [{ index := 0, delta := { role := none, content := none, tool_calls := none },
          finish_reason := some "stop" }] none] := rfl
example :
    proxyDecision 2 { model := none,
                      messages := [{ role := "tool", tool_call_id := none }],
                      tools := some (.arr [.str "t"]), stream := true } =
    .rewrapSSE := rfl
example :
    proxyDecision 1 { model := none,
                      messages := [{ role := "tool", tool_call_id := none }],
                      tools := some (.arr [.str "t"]), stream := true } =
    .loopAbort 200 (loopAbortResult { model := none,
                                      messages := [{ role := "tool", tool_call_id := none }],
                                      tools := some (.arr [.str "t"]), stream := true }) := rfl

theorem contentDeltas_append (a b : List SSEChunk) :
    contentDeltas (a ++ b) = contentDeltas a ++ contentDeltas b := by
  induction a with
  | nil => rfl
  | cons ch rest ih => simp [contentDeltas, ih]

theorem contentDeltas_toolCallChunks (r : CompletionResult) (i : Nat) (l : List ToolCall) :
    contentDeltas (toolCallChunks r i l) = [] := by
  induction l generalizing i with
  | nil => rfl
  | cons tc rest ih =>
    simp [toolCallChunks, contentDeltas, contentDeltasOfChoices, mkChunk, ih]

theorem toolCallDeltas_append (a b : List SSEChunk) :
    toolCallDeltas (a ++ b) = toolCallDeltas a ++ toolCallDeltas b := by
  induction a with
  | nil => rfl
  | cons ch rest ih => simp [toolCallDeltas, ih]

theorem toolCallDeltas_toolCallChunks (r : CompletionResult) (i : Nat) (l : List ToolCall) :
    toolCallDeltas (toolCallChunks r i l) =
      (List.enumFrom i l).map
        (fun p => { index := p.1, id := p.2.id, name := p.2.name, arguments := p.2.arguments }) := by
  induction l generalizing i with
  | nil => rfl
  | cons tc rest ih =>
    simp [toolCallChunks, toolCallDeltas, tcDeltasOfChoices, mkChunk, ih, List.enumFrom]

theorem reassembledFinishAux_append (a b : List SSEChunk) (acc : Option String) :
    reassembledFinishAux (a ++ b) acc = reassembledFinishAux b (reassembledFinishAux a acc) := by
  induction a generalizing acc with
  | nil => rfl
  | cons ch rest ih => simp [reassembledFinishAux, ih]

theorem reassembledFinishAux_toolCallChunks (r : CompletionResult) (i : Nat)
    (l : List ToolCall) (acc : Option String) :
    reassembledFinishAux (toolCallChunks r i l) acc = acc := by
  induction l generalizing i acc with
  | nil => rfl
  | cons tc rest ih =>
    simp [toolCallChunks, reassembledFinishAux, lastFinishOfChoices, mkChunk, ih]

theorem reassembledUsageAux_append (a b : List SSEChunk) (acc : Option Usage) :
    reassembledUsageAux (a ++ b) acc = reassembledUsageAux b (reassembledUsageAux a acc) := by
  induction a generalizing acc with
  | nil => rfl
  | cons ch rest ih => simp [reassembledUsageAux, ih]

theorem reassembledUsageAux_toolCallChunks (r : CompletionResult) (i : Nat)
    (l : List ToolCall) (acc : Option Usage) :
    reassembledUsageAux (toolCallChunks r i l) acc = acc := by
  induction l generalizing i acc with
  | nil => rfl
  | cons tc rest ih =>
    simp [toolCallChunks, reassembledUsageAux, mkChunk, ih]


theorem map_back_enumFrom (i : Nat) (l : List ToolCall) :
    List.map
      ((fun d : DeltaToolCall => ToolCall.mk d.id d.name d.arguments) ∘
        fun p : Nat × ToolCall => DeltaToolCall.mk p.1 p.2.id p.2.name p.2.arguments)
      (List.enumFrom i l) = l := by
  induction l generalizing i with
  | nil => rfl
  | cons tc rest ih => simp [List.enumFrom, ih]

/-- C1 (amended): for a CompletionResult with exactly one choice, reassembling
the emitter's chunk sequence recovers the choice's tool calls and the result's
usage exactly, recovers the content as the concatenation of the content deltas
(which is the content itself when present, and the empty string when the
content is absent — absence itself is not reproduced, see the counterexample),
and recovers finish_reason exactly when present, with stop substituted when
absent. -/
theorem sse_roundtrip_single_choice (r : CompletionResult) (c : CompletionChoice)
    (h : r.choices = [c]) :
    reassembledContent (convert_to_sse_stream r) = some (c.message.content.getD "") ∧
    reassembledToolCalls (convert_to_sse_stream r) = c.message.tool_calls ∧
    reassembledFinish (convert_to_sse_stream r) = some (c.finish_reason.getD "stop") ∧
    reassembledUsage (convert_to_sse_stream r) = r.usage := by
  rcases r with ⟨rid, rmodel, rcreated, rchoices, rusage⟩
  rcases c with ⟨⟨content, tcs⟩, fr⟩
  simp only at h
  subst h
  refine ⟨?_, ?_, ?_, ?_⟩
  · cases content with
    | none =>
      cases rusage <;>
        simp [convert_to_sse_stream, choicesChunks, choiceChunks, mkChunk,
              reassembledContent, contentDeltas_append, contentDeltas,
              contentDeltasOfChoices, contentDeltas_toolCallChunks, String.join]
    | some s =>
      by_cases hs : s = "" <;> cases rusage <;>
        simp [hs, convert_to_sse_stream, choicesChunks, choiceChunks, mkChunk,
              reassembledContent, contentDeltas_append, contentDeltas,
              contentDeltasOfChoices, contentDeltas_toolCallChunks, String.join]
  · cases content with
    | none =>
      cases rusage <;>
        (simp [convert_to_sse_stream, choicesChunks, choiceChunks, mkChunk,
               reassembledToolCalls, toolCallDeltas_append, toolCallDeltas,
               tcDeltasOfChoices, toolCallDeltas_toolCallChunks, List.map_map];
         exact map_back_enumFrom 0 tcs)
    | some s =>
      by_cases hs : s = "" <;> cases rusage <;>
        (simp [hs, convert_to_sse_stream, choicesChunks, choiceChunks, mkChunk,
               reassembledToolCalls, toolCallDeltas_append, toolCallDeltas,
               tcDeltasOfChoices, toolCallDeltas_toolCallChunks, List.map_map];
         exact map_back_enumFrom 0 tcs)
  · cases content with
    | none =>
      cases rusage <;>
        simp [convert_to_sse_stream, choicesChunks, choiceChunks, mkChunk,
              reassembledFinish, reassembledFinishAux_append, reassembledFinishAux,
              lastFinishOfChoices, reassembledFinishAux_toolCallChunks]
    | some s =>
      by_cases hs : s = "" <;> cases rusage <;>
        simp [hs, convert_to_sse_stream, choicesChunks, choiceChunks, mkChunk,
              reassembledFinish, reassembledFinishAux_append, reassembledFinishAux,
              lastFinishOfChoices, reassembledFinishAux_toolCallChunks]
  · cases content with
    | none =>
      cases rusage <;>
        simp [convert_to_sse_stream, choicesChunks, choiceChunks, mkChunk,
              reassembledUsage, reassembledUsageAux_append, reassembledUsageAux,
              reassembledUsageAux_toolCallChunks]
    | some s =>
      by_cases hs : s = "" <;> cases rusage <;>
        simp [hs, convert_to_sse_stream, choicesChunks, choiceChunks, mkChunk,
              reassembledUsage, reassembledUsageAux_append, reassembledUsageAux,
              reassembledUsageAux_toolCallChunks]

/-- Choice of the C1 counterexample: absent content, no tool calls. -/
def c1CounterChoice : CompletionChoice :=
  { message := { content := none, tool_calls := [] }, finish_reason := some "stop" }

/-- CompletionResult on which exact reassembly fails. -/
def c1CounterResult : CompletionResult :=
  { id := "cx", model := "m", created := 0, choices := [c1CounterChoice], usage := none }

/-- C1 counterexample: the chunk sequence of a result with absent content
always carries a content delta (the role chunk's empty string), so the
reassembled content is the empty string present, not absent — the round trip
does not reproduce this CompletionResult exactly. -/
theorem sse_roundtrip_not_exact :
    c1CounterResult.choices = [c1CounterChoice] ∧
    c1CounterChoice.message.content = none ∧
    reassembledContent (convert_to_sse_stream c1CounterResult) = some "" ∧
    reassembledContent (convert_to_sse_stream c1CounterResult) ≠
      c1CounterChoice.message.content := by
  refine ⟨rfl, rfl, rfl, ?_⟩
  intro h
  exact Option.noConfusion (show (some "" : Option String) = none from h)

/-- Choice used by the C1 witness. -/
def c1WitnessChoice : CompletionChoice :=
  { message := { content := some "hello",
                 tool_calls := [{ id := "t1", name := "f", arguments := "\x7b\x7d" }] },
    finish_reason := some "tool_calls" }

/-- CompletionResult used by the C1 witness. -/
def c1WitnessResult : CompletionResult :=
  { id := "w1", model := "m", created := 1, choices := [c1WitnessChoice],
    usage := some { prompt_tokens := 1, completion_tokens := 2, total_tokens := 3 } }

/-- Witness instantiating the C1 theorem on a concrete single-choice result
with a tool call and usage. -/
theorem sse_roundtrip_single_choice_witness :
    reassembledContent (convert_to_sse_stream c1WitnessResult) = some "hello" ∧
    reassembledToolCalls (convert_to_sse_stream c1WitnessResult) =
      [{ id := "t1", name := "f", arguments := "\x7b\x7d" }] ∧
    reassembledFinish (convert_to_sse_stream c1WitnessResult) = some "tool_calls" ∧
    reassembledUsage (convert_to_sse_stream c1WitnessResult) =
      some { prompt_tokens := 1, completion_tokens := 2, total_tokens := 3 } :=
  sse_roundtrip_single_choice c1WitnessResult c1WitnessChoice rfl

theorem filter_tc_toolCallChunks (r : CompletionResult) (i : Nat) (l : List ToolCall) :
    ((toolCallChunks r i l).filter
        (fun ch => !(tcDeltasOfChoices ch.choices).isEmpty)).length = l.length := by
  induction l generalizing i with
  | nil => rfl
  | cons tc rest ih =>
    simp [toolCallChunks, tcDeltasOfChoices, mkChunk, List.filter, ih]

theorem toolCallDeltas_choiceChunks (r : CompletionResult) (c : CompletionChoice) :
    toolCallDeltas (choiceChunks r c) =
      (List.enumFrom 0 c.message.tool_calls).map
        (fun p => { index := p.1, id := p.2.id, name := p.2.name,
                    arguments := p.2.arguments }) := by
  rcases c with ⟨⟨content, tcs⟩, fr⟩
  cases content with
  | none =>
    simp [choiceChunks, mkChunk, toolCallDeltas_append, toolCallDeltas,
          tcDeltasOfChoices, toolCallDeltas_toolCallChunks]
  | some s =>
    by_cases hs : s = "" <;>
      simp [hs, choiceChunks, mkChunk, toolCallDeltas_append, toolCallDeltas,
            tcDeltasOfChoices, toolCallDeltas_toolCallChunks]

theorem filter_tc_choiceChunks (r : CompletionResult) (c : CompletionChoice) :
    ((choiceChunks r c).filter
        (fun ch => !(tcDeltasOfChoices ch.choices).isEmpty)).length =
      c.message.tool_calls.length := by
  rcases c with ⟨⟨content, tcs⟩, fr⟩
  cases content with
  | none =>
    simp [choiceChunks, mkChunk, List.filter_append, List.filter,
          tcDeltasOfChoices, filter_tc_toolCallChunks]
  | some s =>
    by_cases hs : s = "" <;>
      simp [hs, choiceChunks, mkChunk, List.filter_append, List.filter,
            tcDeltasOfChoices, filter_tc_toolCallChunks]

/-- Tool-call deltas the amended C2 claim expects, choice by choice: one
complete delta per tool call, in extraction order, indexed from 0 within each
choice as the emitter's enumerate does.  This is the spec side of the claim,
to be compared with what the emitter yields. -/
def expectedToolCallDeltas : List CompletionChoice → List DeltaToolCall
  | [] => []
  | c :: cs =>
    (List.enumFrom 0 c.message.tool_calls).map
      (fun p => { index := p.1, id := p.2.id, name := p.2.name,
                  arguments := p.2.arguments })
      ++ expectedToolCallDeltas cs

/-- Total number of tool calls across the choices of a result. -/
def totalToolCalls : List CompletionChoice → Nat
  | [] => 0
  | c :: cs => c.message.tool_calls.length + totalToolCalls cs

theorem toolCallDeltas_choicesChunks (r : CompletionResult)
    (cs : List CompletionChoice) :
    toolCallDeltas (choicesChunks r cs) = expectedToolCallDeltas cs := by
  induction cs with
  | nil => rfl
  | cons c rest ih =>
    simp [choicesChunks, toolCallDeltas_append, toolCallDeltas_choiceChunks,
          expectedToolCallDeltas, ih]

theorem filter_tc_choicesChunks (r : CompletionResult) (cs : List CompletionChoice) :
    ((choicesChunks r cs).filter
        (fun ch => !(tcDeltasOfChoices ch.choices).isEmpty)).length =
      totalToolCalls cs := by
  induction cs with
  | nil => rfl
  | cons c rest ih =>
    simp [choicesChunks, List.filter_append, totalToolCalls, ih]
    simp [filter_tc_choiceChunks]

/-- C2 (amended): for every CompletionResult the emitter yields, per tool call
in extraction order (choice by choice), exactly one chunk, whose single delta
carries the call's index, id, name and full arguments string together — there
is no separate empty-arguments introduction chunk, and the number of
tool-call-bearing chunks equals the total number of tool calls. -/
theorem emitter_one_chunk_per_tool_call (r : CompletionResult) :
    toolCallDeltas (convert_to_sse_stream r) = expectedToolCallDeltas r.choices ∧
    ((convert_to_sse_stream r).filter
        (fun ch => !(tcDeltasOfChoices ch.choices).isEmpty)).length =
      totalToolCalls r.choices := by
  constructor
  · cases hu : r.usage <;>
      simp [convert_to_sse_stream, hu, toolCallDeltas_append, toolCallDeltas,
            tcDeltasOfChoices, toolCallDeltas_choicesChunks]
  · cases hu : r.usage <;>
      simp [convert_to_sse_stream, hu, List.filter_append, List.filter,
            tcDeltasOfChoices, filter_tc_choicesChunks]

/-- CompletionResult of the C2 counterexample: one tool call with a non-empty
arguments string. -/
def c2CounterResult : CompletionResult :=
  { id := "c2", model := "m", created := 0,
    choices := [{ message := { content := none,
                               tool_calls := [{ id := "call1", name := "f",
                                                arguments := "\x7b\"x\": 1\x7d" }] },
                  finish_reason := some "tool_calls" }],
    usage := none }

/-- C2 counterexample: for a result with one tool call the emitter yields one
tool-call-bearing chunk, not the two the claim requires, and no delta carries
the empty-arguments introduction the claim describes. -/
theorem emitter_two_chunks_per_call_false :
    ((convert_to_sse_stream c2CounterResult).filter
        (fun ch => !(tcDeltasOfChoices ch.choices).isEmpty)).length = 1 ∧
    ((convert_to_sse_stream c2CounterResult).filter
        (fun ch => !(tcDeltasOfChoices ch.choices).isEmpty)).length ≠ 2 ∧
    toolCallDeltas (convert_to_sse_stream c2CounterResult) =
      [{ index := 0, id := "call1", name := "f", arguments := "\x7b\"x\": 1\x7d" }] ∧
    (toolCallDeltas (convert_to_sse_stream c2CounterResult)).all
      (fun d => d.arguments != "") = true :=
  ⟨rfl, by decide, rfl, rfl⟩

/-- CompletionResult of the C2 witness: two choices, the first with two tool
calls and the second with one, so the multi-choice case is exercised. -/
def c2WitnessResult : CompletionResult :=
  { id := "w2", model := "m", created := 2,
    choices := [{ message := { content := some "ok",
                               tool_calls := [{ id := "a", name := "f",
                                                arguments := "\x7b\x7d" },
                                              { id := "b", name := "g",
                                                arguments := "\x7b\"y\": 2\x7d" }] },
                  finish_reason := some "tool_calls" },
                { message := { content := none,
                               tool_calls := [{ id := "c", name := "h",
                                                arguments := "\x7b\"z\": 3\x7d" }] },
                  finish_reason := some "tool_calls" }],
    usage := none }

/-- Instantiation of the C2 theorem on the concrete two-choice, three-call
result: one delta per call, in order, with indices restarting per choice. -/
theorem emitter_one_chunk_per_tool_call_witness :
    toolCallDeltas (convert_to_sse_stream c2WitnessResult) =
      [{ index := 0, id := "a", name := "f", arguments := "\x7b\x7d" },
       { index := 1, id := "b", name := "g", arguments := "\x7b\"y\": 2\x7d" },
       { index := 0, id := "c", name := "h", arguments := "\x7b\"z\": 3\x7d" }] ∧
    ((convert_to_sse_stream c2WitnessResult).filter
        (fun ch => !(tcDeltasOfChoices ch.choices).isEmpty)).length = 3 :=
  ⟨(emitter_one_chunk_per_tool_call c2WitnessResult).1.trans rfl,
   (emitter_one_chunk_per_tool_call c2WitnessResult).2.trans rfl⟩

/-- C3: whenever strategy 1 (tag extraction) yields at least one call, the
extractor returns exactly those calls — strategies 2 and 3 are never consulted,
so a bare-JSON object outside the tagged block contributes nothing. -/
theorem extraction_priority_tagged_first (content : String)
    (h : taggedCalls content ≠ []) :
    (extract_from_content content).1 = taggedCalls content := by
  have hni : (taggedCalls content).isEmpty = false := by
    cases hc : taggedCalls content with
    | nil => exact absurd hc h
    | cons a l => rfl
  unfold extract_from_content
  simp only [hni, Bool.false_eq_true, if_false]

/-- Input of the C3 witness: a tagged block yielding one call, followed by a
separate bare-JSON tool-call object outside the block. -/
def c3Input : String :=
  "<tools>\x7b\"name\": \"a\", \"arguments\": \x7b\x7d\x7d</tools>\n\x7b\"name\": \"b\", \"arguments\": \x7b\x7d\x7d"

/-- Witness instantiating the C3 theorem: only the tagged-block call (name a)
is returned; the trailing bare object (name b) is ignored. -/
theorem extraction_priority_tagged_first_witness :
    taggedCalls c3Input ≠ [] ∧
    (extract_from_content c3Input).1 = taggedCalls c3Input ∧
    (taggedCalls c3Input).map (fun c => c.name) = [Json.str "a"] := by
  have h : taggedCalls c3Input ≠ [] := by
    intro hh
    have h2 : (taggedCalls c3Input).isEmpty = true := by rw [hh]; rfl
    exact Bool.noConfusion
      ((rfl : (taggedCalls c3Input).isEmpty = false).symm.trans h2)
  exact ⟨h, extraction_priority_tagged_first c3Input h, rfl⟩

/-- Input of the C4 scenario, exactly as the spec writes it. -/
def c4Input : String :=
  "<tools>\x7b\"name\":\"get_weather\",\"arguments\":\x7b\"city\":\"Austin\"\x7d\x7d</tools>"

/-- C4 counterexample: on the scenario input the extractor emits one call named
get_weather and the residual content is absent, but the arguments string is the
json.dumps serialization with the default separators — a space follows the
colon — so it differs from the compact string the claim gives, and the claim as
stated is false on this input. -/
theorem tagged_scenario_arguments_not_compact :
    (extract_from_content c4Input).1.map (fun c => c.arguments) =
      [Json.str "\x7b\"city\": \"Austin\"\x7d"] ∧
    (extract_from_content c4Input).1.map (fun c => c.arguments) ≠
      [Json.str "\x7b\"city\":\"Austin\"\x7d"] := by
  refine ⟨rfl, ?_⟩
  intro h
  have h2 : [Json.str "\x7b\"city\": \"Austin\"\x7d"] =
      [Json.str "\x7b\"city\":\"Austin\"\x7d"] :=
    (rfl : (extract_from_content c4Input).1.map (fun c => c.arguments) =
      [Json.str "\x7b\"city\": \"Austin\"\x7d"]).symm.trans h
  injection h2 with h3 _
  injection h3 with h4
  exact absurd h4 (by decide)

/-- C4 (amended): on the scenario input the extractor produces exactly one
ToolCall, named get_weather, whose arguments are the serialized string with
json.dumps default separators, and the residual content is absent (not the
empty string) because the tagged block was the entire content. -/
theorem tagged_scenario_extraction :
    (extract_from_content c4Input).1.map (fun c => (c.name, c.arguments)) =
      [(Json.str "get_weather", Json.str "\x7b\"city\": \"Austin\"\x7d")] ∧
    (extract_from_content c4Input).1.length = 1 ∧
    (extract_from_content c4Input).2 = none :=
  ⟨rfl, rfl, rfl⟩

/-- Discriminator used to state that an extracted arguments value is not a
string. -/
def isStrJson : Json → Bool
  | .str _ => true
  | _ => false

/-- Discriminator for object values, mirroring isinstance(x, dict). -/
def isObjJson : Json → Bool
  | .obj _ => true
  | _ => false

/-- Input of the C9 counterexample: a valid candidate whose arguments value is
the number 5. -/
def c9CounterInput : String := "\x7b\"name\": \"f\", \"arguments\": 5\x7d"

/-- C9 counterexample: the candidate with numeric arguments is emitted, but its
arguments value is passed through as the JSON number 5 — it is not coerced to
any string form (isStrJson is false on it), so the claim as stated is false on
this input. -/
theorem arguments_not_coerced_to_string :
    (parse_single_tool_call (freshId 0) c9CounterInput).map (fun c => c.arguments) =
      some (Json.num 5) ∧
    (parse_single_tool_call (freshId 0) c9CounterInput).map
      (fun c => isStrJson c.arguments) = some false :=
  ⟨rfl, rfl⟩

/-- C9 (amended): a candidate that parses as an object with a name field and a
non-object arguments value is still emitted — extraction does not abort on the
candidate — but the arguments value is kept exactly as parsed (only object
arguments are serialized to a string; strings, numbers, lists and booleans pass
through unchanged). -/
theorem non_object_arguments_pass_through (fresh text : String)
    (kvs : List (String × Json)) (nv j : Json)
    (hload : loads (pyStrip text) = some (.obj kvs))
    (hname : objGet kvs "name" = some nv)
    (hargs : objGet kvs "arguments" = some j)
    (hnotobj : isObjJson j = false) :
    parse_single_tool_call fresh text = some { id := fresh, name := nv, arguments := j } := by
  have hne : pyStrip text ≠ "" := by
    intro hh
    rw [hh] at hload
    exact Option.noConfusion ((rfl : loads "" = none).symm.trans hload)
  unfold parse_single_tool_call
  rw [if_neg hne, hload]
  simp only [hname, hargs, Option.getD_some]
  cases j <;> simp_all [isObjJson]

/-- Input of the C9 witness: boolean arguments. -/
def c9WitnessInput : String := "\x7b\"name\": \"g\", \"arguments\": true\x7d"

/-- Witness instantiating the C9 theorem on the boolean-arguments candidate. -/
theorem non_object_arguments_pass_through_witness :
    parse_single_tool_call "fid" c9WitnessInput =
      some { id := "fid", name := .str "g", arguments := .bool true } :=
  non_object_arguments_pass_through "fid" c9WitnessInput
    [("name", .str "g"), ("arguments", .bool true)] (.str "g") (.bool true)
    rfl rfl rfl rfl

theorem foldl_append_filter_nonempty (l : List String) (acc : String) :
    (l.filter (fun c => c != "")).foldl (· ++ ·) acc = l.foldl (· ++ ·) acc := by
  induction l generalizing acc with
  | nil => rfl
  | cons a l ih =>
    by_cases ha : a = ""
    · subst ha
      simpa [List.filter_cons] using ih acc
    · simp [List.filter_cons, ha, ih]

/-- Upstream body of the C5 counterexample, carrying a backend-only field. -/
def c5Upstream : String := "\x7b\"id\": \"x\", \"system_fingerprint\": \"fp\"\x7d"

/-- C5 counterexample: with no tools declared, the buffered forwarding path
still parses, normalizes and re-serializes the upstream JSON, so the response
body is not byte-identical to the upstream body — the backend-only field is
stripped. -/
theorem passthrough_not_byte_identical :
    forward_with_body_and_fix_body false c5Upstream = "\x7b\"id\": \"x\"\x7d" ∧
    forward_with_body_and_fix_body false c5Upstream ≠ c5Upstream := by
  have h1 : forward_with_body_and_fix_body false c5Upstream = "\x7b\"id\": \"x\"\x7d" := by
    decide
  refine ⟨h1, ?_⟩
  intro h
  exact absurd (h1.symm.trans h) (by decide)

/-- C5 (amended): with no tools declared, the streaming path forwards the
upstream chunk stream byte-identically, while the buffered path re-serializes
the normalized parse of the upstream body (and returns the body verbatim only
when it does not parse as JSON). -/
theorem no_tools_forwarding_behavior :
    (∀ chunks : List String,
        String.join (stream_response_chunks chunks) = String.join chunks) ∧
    (∀ b : String, ∀ j : Json, loads b = some j →
        forward_with_body_and_fix_body false b = dumps (clean_response_for_openclaw j)) ∧
    (∀ b : String, loads b = none → forward_with_body_and_fix_body false b = b) := by
  refine ⟨?_, ?_, ?_⟩
  · intro chunks
    exact foldl_append_filter_nonempty chunks ""
  · intro b j h
    unfold forward_with_body_and_fix_body
    rw [h]
    rfl
  · intro b h
    unfold forward_with_body_and_fix_body
    rw [h]

/-- Witness instantiating the C5 theorem: a concrete chunk stream is joined
unchanged, a parseable body is rewritten to its normalized serialization, and
a non-JSON body passes through verbatim. -/
theorem no_tools_forwarding_behavior_witness :
    String.join (stream_response_chunks ["data: a\n\n", "data: b\n\n"]) =
      String.join ["data: a\n\n", "data: b\n\n"] ∧
    forward_with_body_and_fix_body false "\x7b\x7d" =
      dumps (clean_response_for_openclaw (.obj [])) ∧
    forward_with_body_and_fix_body false "not json" = "not json" :=
  ⟨no_tools_forwarding_behavior.1 ["data: a\n\n", "data: b\n\n"],
   no_tools_forwarding_behavior.2.1 "\x7b\x7d" (.obj []) rfl,
   no_tools_forwarding_behavior.2.2 "not json" rfl⟩

theorem has_tools_stream_irrelevant (b : ChatBody) (s : Bool) :
    has_tools { b with stream := s } = has_tools b := rfl

theorem proxyDecision_of_guard_none (maxToolCalls : Nat) (b : ChatBody)
    (hguard : (if has_tools b then check_tool_loop maxToolCalls b else none) = none)
    (s : Nat) (r : CompletionResult) :
    proxyDecision maxToolCalls b ≠ .loopAbort s r := by
  unfold proxyDecision
  rw [hguard]
  cases hs : b.stream <;> cases ht : has_tools b <;>
    simp [hs, ht, has_tools_stream_irrelevant]

/-- C6: with ceiling N, a history counting exactly N-1 tool results is never
answered by the loop guard (the guard returns none and the dispatcher picks a
forwarding strategy, whatever the body), while a history counting N or more,
on a body declaring tools, is answered directly — before any upstream call —
with HTTP 200 and the synthetic completion whose single choice explains the
abort and carries finish_reason stop. -/
theorem loop_guard_boundary (maxToolCalls : Nat) (b : ChatBody) :
    (count_tool_results b.messages = maxToolCalls - 1 → 1 ≤ maxToolCalls →
      check_tool_loop maxToolCalls b = none ∧
      ∀ s r, proxyDecision maxToolCalls b ≠ .loopAbort s r) ∧
    (has_tools b = true → maxToolCalls ≤ count_tool_results b.messages →
      proxyDecision maxToolCalls b = .loopAbort 200 (loopAbortResult b) ∧
      (loopAbortResult b).choices =
        [{ message := { content := some (abortContent (count_tool_results b.messages)),
                        tool_calls := [] },
           finish_reason := some "stop" }]) := by
  constructor
  · intro hcount hpos
    have hnone : check_tool_loop maxToolCalls b = none := by
      unfold check_tool_loop
      rw [if_neg (by omega)]
    have hguard : (if has_tools b then check_tool_loop maxToolCalls b else none) = none := by
      cases htools : has_tools b <;> simp [hnone]
    exact ⟨hnone, proxyDecision_of_guard_none maxToolCalls b hguard⟩
  · intro htools hge
    have hsome : check_tool_loop maxToolCalls b = some (loopAbortResult b) := by
      unfold check_tool_loop
      rw [if_pos hge]
    constructor
    · unfold proxyDecision
      rw [htools]
      simp [hsome]
    · rfl

/-- Body of the C6 witness: two tool results (one by role, one by
tool_call_id), tools declared. -/
def c6Body : ChatBody :=
  { model := some "m",
    messages := [{ role := "tool", tool_call_id := none },
                 { role := "user", tool_call_id := none },
                 { role := "assistant", tool_call_id := some "abc" }],
    tools := some (.arr [.str "t"]), stream := false }

/-- Witness instantiating the C6 theorem at ceilings 3 (count = N-1 proceeds)
and 2 (count = N aborts) on the concrete body. -/
theorem loop_guard_boundary_witness :
    check_tool_loop 3 c6Body = none ∧
    proxyDecision 3 c6Body ≠ .loopAbort 200 (loopAbortResult c6Body) ∧
    proxyDecision 2 c6Body = .loopAbort 200 (loopAbortResult c6Body) :=
  ⟨((loop_guard_boundary 3 c6Body).1 rfl (by decide)).1,
   ((loop_guard_boundary 3 c6Body).1 rfl (by decide)).2 200 (loopAbortResult c6Body),
   ((loop_guard_boundary 2 c6Body).2 rfl (by decide)).1⟩

/-- C10: when the body declares no tools (missing, empty or otherwise falsy
tools value), the dispatcher never answers with the loop abort, however many
tool results the history counts — the guard is only consulted when tools are
declared. -/
theorem no_tools_never_loop_abort (maxToolCalls : Nat) (b : ChatBody)
    (h : has_tools b = false) (s : Nat) (r : CompletionResult) :
    proxyDecision maxToolCalls b ≠ .loopAbort s r := by
  have hguard : (if has_tools b then check_tool_loop maxToolCalls b else none) = none := by
    simp [h]
  exact proxyDecision_of_guard_none maxToolCalls b hguard s r

/-- Body of the C10 witness: an empty tools list (falsy) and far more tool
results than the ceiling. -/
def c10Body : ChatBody :=
  { model := none,
    messages := List.replicate 600 { role := "tool", tool_call_id := none },
    tools := some (.arr []), stream := false }

/-- Witness instantiating the C10 theorem: ceiling 1, six hundred tool
results, no abort. -/
theorem no_tools_never_loop_abort_witness :
    proxyDecision 1 c10Body ≠ .loopAbort 200 (loopAbortResult c10Body) :=
  no_tools_never_loop_abort 1 c10Body rfl 200 (loopAbortResult c10Body)

theorem removeKeys_cons (ks : List String) (kv : String × Json) (rest : List (String × Json)) :
    removeKeys ks (kv :: rest) =
      if kv.1 ∈ ks then removeKeys ks rest else kv :: removeKeys ks rest := by
  by_cases h : kv.1 ∈ ks <;> simp [removeKeys, List.filter_cons, h]

theorem objGet_removeKeys (ks : List String) (kvs : List (String × Json)) (k : String) :
    objGet (removeKeys ks kvs) k = if k ∈ ks then none else objGet kvs k := by
  induction kvs with
  | nil => simp [removeKeys, objGet]
  | cons kv rest ih =>
    rcases kv with ⟨k1, v1⟩
    rw [removeKeys_cons]
    by_cases h1 : k1 ∈ ks
    · by_cases h2 : k1 = k
      · subst h2
        simp [h1, ih]
      · simp [h1, objGet, h2, ih]
    · by_cases h2 : k1 = k
      · subst h2
        simp [h1, objGet, ih]
      · simp [h1, objGet, h2, ih]

theorem removeKeys_comm (ks ks' : List String) (kvs : List (String × Json)) :
    removeKeys ks (removeKeys ks' kvs) = removeKeys ks' (removeKeys ks kvs) := by
  induction kvs with
  | nil => rfl
  | cons kv rest ih =>
    by_cases h1 : kv.1 ∈ ks <;> by_cases h2 : kv.1 ∈ ks' <;>
      simp [removeKeys_cons, h1, h2, ih]

theorem removeKeys_idem (ks : List String) (kvs : List (String × Json)) :
    removeKeys ks (removeKeys ks kvs) = removeKeys ks kvs := by
  induction kvs with
  | nil => rfl
  | cons kv rest ih =>
    by_cases h : kv.1 ∈ ks <;> simp [removeKeys_cons, h, ih]

theorem objGet_objSet_same (kvs : List (String × Json)) (k : String) (v : Json) :
    objGet (objSet kvs k v) k = some v := by
  induction kvs with
  | nil => simp [objSet, objGet]
  | cons kv rest ih =>
    by_cases h : kv.1 = k <;> simp [objSet, objGet, h, ih]

theorem objGet_objSet_other (kvs : List (String × Json)) (k : String) (v : Json)
    (k' : String) (h : k' ≠ k) :
    objGet (objSet kvs k v) k' = objGet kvs k' := by
  induction kvs with
  | nil => simp [objSet, objGet, Ne.symm h]
  | cons kv rest ih =>
    by_cases h1 : kv.1 = k
    · simp [objSet, objGet, h1, Ne.symm h]
    · simp [objSet, objGet, h1, ih]

theorem hasKey_objSet_self (kvs : List (String × Json)) (k : String) (v : Json) :
    hasKey (objSet kvs k v) k = true := by
  simp [hasKey, objGet_objSet_same]

theorem hasKey_objSet_other (kvs : List (String × Json)) (k : String) (v : Json)
    (k' : String) (h : k' ≠ k) :
    hasKey (objSet kvs k v) k' = hasKey kvs k' := by
  simp [hasKey, objGet_objSet_other kvs k v k' h]

theorem hasKey_removeKeys (ks : List String) (kvs : List (String × Json)) (k : String)
    (h : k ∉ ks) :
    hasKey (removeKeys ks kvs) k = hasKey kvs k := by
  simp [hasKey, objGet_removeKeys, h]

theorem objSet_objSet (kvs : List (String × Json)) (k : String) (v v' : Json) :
    objSet (objSet kvs k v) k v' = objSet kvs k v' := by
  induction kvs with
  | nil => simp [objSet]
  | cons kv rest ih =>
    by_cases h : kv.1 = k <;> simp [objSet, h, ih]

theorem removeKeys_objSet (ks : List String) (kvs : List (String × Json)) (k : String)
    (v : Json) (h : k ∉ ks) :
    removeKeys ks (objSet kvs k v) = objSet (removeKeys ks kvs) k v := by
  induction kvs with
  | nil => simp [objSet, removeKeys_cons, removeKeys, h]
  | cons kv rest ih =>
    by_cases h1 : kv.1 = k
    · simp [objSet, removeKeys_cons, h1, h]
    · by_cases h2 : kv.1 ∈ ks <;> simp [objSet, removeKeys_cons, h1, h2, ih]

theorem objSet_comm_of_hasKey (kvs : List (String × Json)) (k : String) (v : Json)
    (k' : String) (v' : Json) (hne : k ≠ k')
    (hk : hasKey kvs k = true) (hk' : hasKey kvs k' = true) :
    objSet (objSet kvs k v) k' v' = objSet (objSet kvs k' v') k v := by
  induction kvs with
  | nil => simp [hasKey, objGet] at hk
  | cons kv rest ih =>
    by_cases h1 : kv.1 = k
    · simp [objSet, h1, hne, Ne.symm hne]
    · by_cases h2 : kv.1 = k'
      · simp [objSet, h1, h2, hne, Ne.symm hne]
      · have hk2 : hasKey rest k = true := by simpa [hasKey, objGet, h1] using hk
        have hk2' : hasKey rest k' = true := by simpa [hasKey, objGet, h2] using hk'
        simp [objSet, h1, h2, ih hk2 hk2']

theorem objGet_choicesStage_other (kvs : List (String × Json)) (k : String)
    (h : k ≠ "choices") :
    objGet (choicesStage kvs) k = objGet kvs k := by
  unfold choicesStage
  cases hc : objGet kvs "choices" with
  | none => rfl
  | some cv => cases cv <;> simp [objGet_objSet_other _ _ _ _ h]

theorem objGet_usageStage_other (kvs : List (String × Json)) (k : String)
    (h : k ≠ "usage") :
    objGet (usageStage kvs) k = objGet kvs k := by
  unfold usageStage
  cases hu : objGet kvs "usage" with
  | none => rfl
  | some u =>
    cases hput : pyTruthy u
    · simp [hput]
    · cases u <;> simp [hput, objGet_objSet_other _ _ _ _ h]

theorem removeKeys_choicesStage (ks : List String) (kvs : List (String × Json))
    (h : "choices" ∉ ks) :
    removeKeys ks (choicesStage kvs) = choicesStage (removeKeys ks kvs) := by
  unfold choicesStage
  rw [objGet_removeKeys, if_neg h]
  cases hc : objGet kvs "choices" with
  | none => rfl
  | some cv => cases cv <;> simp [removeKeys_objSet _ _ _ _ h]

theorem removeKeys_usageStage (ks : List String) (kvs : List (String × Json))
    (h : "usage" ∉ ks) :
    removeKeys ks (usageStage kvs) = usageStage (removeKeys ks kvs) := by
  unfold usageStage
  rw [objGet_removeKeys, if_neg h]
  cases hu : objGet kvs "usage" with
  | none => rfl
  | some u =>
    cases hput : pyTruthy u
    · simp [hput]
    · cases u <;> simp [hput, removeKeys_objSet _ _ _ _ h]

theorem cleanMsg_idem (m : Json) : cleanMsg (cleanMsg m) = cleanMsg m := by
  cases m with
  | obj kvs =>
    simp only [cleanMsg]
    by_cases ht : pyTruthy ((objGet (removeKeys msgStripKeys kvs) "tool_calls").getD .null) = true
    · rw [if_pos ht, removeKeys_idem, if_pos ht]
    · rw [if_neg ht, removeKeys_comm msgStripKeys ["tool_calls"], removeKeys_idem]
      rw [show objGet (removeKeys ["tool_calls"] (removeKeys msgStripKeys kvs)) "tool_calls"
            = none from by rw [objGet_removeKeys]; simp]
      rw [if_neg (by simp [pyTruthy]), removeKeys_idem]
  | null => rfl
  | bool b => rfl
  | num n => rfl
  | str s => rfl
  | arr xs => rfl

theorem cleanChoice_idem (c : Json) : cleanChoice (cleanChoice c) = cleanChoice c := by
  cases c with
  | obj kvs =>
    simp only [cleanChoice]
    cases hm : objGet (removeKeys choiceStripKeys kvs) "message" with
    | none =>
      simp only [hm]
      simp only [cleanChoice, removeKeys_idem, hm]
    | some m =>
      simp only [hm]
      rw [removeKeys_objSet _ _ _ _ (by decide), removeKeys_idem]
      simp only [objGet_objSet_same]
      rw [cleanMsg_idem, objSet_objSet]
  | null => rfl
  | bool b => rfl
  | num n => rfl
  | str s => rfl
  | arr xs => rfl

theorem map_cleanChoice_idem (cs : List Json) :
    (cs.map cleanChoice).map cleanChoice = cs.map cleanChoice := by
  induction cs with
  | nil => rfl
  | cons c rest ih => simp [cleanChoice_idem, ih]

theorem map_comp_cleanChoice (cs : List Json) :
    cs.map (cleanChoice ∘ cleanChoice) = cs.map cleanChoice := by
  induction cs with
  | nil => rfl
  | cons c rest ih => simp [Function.comp, cleanChoice_idem, ih]

theorem choicesStage_idem (kvs : List (String × Json)) :
    choicesStage (choicesStage kvs) = choicesStage kvs := by
  unfold choicesStage
  cases hc : objGet kvs "choices" with
  | none => simp [hc]
  | some cv =>
    cases cv <;>
      simp [hc, objGet_objSet_same, map_comp_cleanChoice, map_cleanChoice_idem, objSet_objSet]

theorem usageStage_idem (kvs : List (String × Json)) :
    usageStage (usageStage kvs) = usageStage kvs := by
  unfold usageStage
  cases hu : objGet kvs "usage" with
  | none => simp [hu]
  | some u =>
    cases hput : pyTruthy u
    · simp [hu, hput]
    · cases u with
      | obj us =>
        simp only [hu, hput, if_true]
        rw [objGet_objSet_same]
        cases hempty : (removeKeys ["prompt_tokens_details"] us).isEmpty
        · simp [pyTruthy, hempty, objSet_objSet, removeKeys_idem]
        · simp [pyTruthy, hempty]
      | null => simp [hu, hput]
      | bool b => simp [hu, hput]
      | num n => simp [hu, hput]
      | str s => simp [hu, hput]
      | arr xs => simp [hu, hput]

theorem choicesStage_usageStage_comm (kvs : List (String × Json)) :
    choicesStage (usageStage kvs) = usageStage (choicesStage kvs) := by
  cases hc : objGet kvs "choices" with
  | none =>
    have h1 : choicesStage kvs = kvs := by unfold choicesStage; rw [hc]
    have h2 : choicesStage (usageStage kvs) = usageStage kvs := by
      unfold choicesStage
      rw [objGet_usageStage_other kvs "choices" (by decide), hc]
    rw [h1, h2]
  | some cv =>
    cases cv with
    | arr cs =>
      have h2 : choicesStage (usageStage kvs) =
          objSet (usageStage kvs) "choices" (.arr (cs.map cleanChoice)) := by
        unfold choicesStage
        rw [objGet_usageStage_other kvs "choices" (by decide), hc]
      rw [h2]
      have h1 : choicesStage kvs = objSet kvs "choices" (.arr (cs.map cleanChoice)) := by
        unfold choicesStage
        rw [hc]
      rw [h1]
      cases hu : objGet kvs "usage" with
      | none =>
        have h3 : usageStage kvs = kvs := by unfold usageStage; rw [hu]
        have h4 : usageStage (objSet kvs "choices" (.arr (cs.map cleanChoice))) =
            objSet kvs "choices" (.arr (cs.map cleanChoice)) := by
          unfold usageStage
          rw [objGet_objSet_other _ _ _ _ (by decide), hu]
        rw [h3, h4]
      | some u =>
        cases hput : pyTruthy u
        · have h3 : usageStage kvs = kvs := by
            unfold usageStage; rw [hu]; simp [hput]
          have h4 : usageStage (objSet kvs "choices" (.arr (cs.map cleanChoice))) =
              objSet kvs "choices" (.arr (cs.map cleanChoice)) := by
            unfold usageStage
            rw [objGet_objSet_other _ _ _ _ (by decide), hu]
            simp [hput]
          rw [h3, h4]
        · cases u with
          | obj us =>
            have h3 : usageStage kvs =
                objSet kvs "usage" (.obj (removeKeys ["prompt_tokens_details"] us)) := by
              unfold usageStage; rw [hu]; simp [hput]
            have h4 : usageStage (objSet kvs "choices" (.arr (cs.map cleanChoice))) =
                objSet (objSet kvs "choices" (.arr (cs.map cleanChoice))) "usage"
                  (.obj (removeKeys ["prompt_tokens_details"] us)) := by
              unfold usageStage
              rw [objGet_objSet_other _ _ _ _ (by decide), hu]
              simp [hput]
            rw [h3, h4]
            exact objSet_comm_of_hasKey kvs "usage"
              (.obj (removeKeys ["prompt_tokens_details"] us)) "choices"
              (.arr (cs.map cleanChoice)) (by decide)
              (by simp [hasKey, hu]) (by simp [hasKey, hc])
          | null => simp [pyTruthy] at hput
          | bool b =>
            have h3 : usageStage kvs = kvs := by
              unfold usageStage; rw [hu]; cases b <;> simp_all [pyTruthy]
            have h4 : usageStage (objSet kvs "choices" (.arr (cs.map cleanChoice))) =
                objSet kvs "choices" (.arr (cs.map cleanChoice)) := by
              unfold usageStage
              rw [objGet_objSet_other _ _ _ _ (by decide), hu]
              cases b <;> simp_all [pyTruthy]
            rw [h3, h4]
          | num n =>
            have h3 : usageStage kvs = kvs := by
              unfold usageStage; rw [hu]; simp [hput]
            have h4 : usageStage (objSet kvs "choices" (.arr (cs.map cleanChoice))) =
                objSet kvs "choices" (.arr (cs.map cleanChoice)) := by
              unfold usageStage
              rw [objGet_objSet_other _ _ _ _ (by decide), hu]
              simp [hput]
            rw [h3, h4]
          | str s =>
            have h3 : usageStage kvs = kvs := by
              unfold usageStage; rw [hu]; simp [hput]
            have h4 : usageStage (objSet kvs "choices" (.arr (cs.map cleanChoice))) =
                objSet kvs "choices" (.arr (cs.map cleanChoice)) := by
              unfold usageStage
              rw [objGet_objSet_other _ _ _ _ (by decide), hu]
              simp [hput]
            rw [h3, h4]
          | arr xs =>
            have h3 : usageStage kvs = kvs := by
              unfold usageStage; rw [hu]; simp [hput]
            have h4 : usageStage (objSet kvs "choices" (.arr (cs.map cleanChoice))) =
                objSet kvs "choices" (.arr (cs.map cleanChoice)) := by
              unfold usageStage
              rw [objGet_objSet_other _ _ _ _ (by decide), hu]
              simp [hput]
            rw [h3, h4]
    | null =>
      have h1 : choicesStage kvs = kvs := by unfold choicesStage; rw [hc]
      have h2 : choicesStage (usageStage kvs) = usageStage kvs := by
        unfold choicesStage
        rw [objGet_usageStage_other kvs "choices" (by decide), hc]
      rw [h1, h2]
    | bool b =>
      have h1 : choicesStage kvs = kvs := by unfold choicesStage; rw [hc]
      have h2 : choicesStage (usageStage kvs) = usageStage kvs := by
        unfold choicesStage
        rw [objGet_usageStage_other kvs "choices" (by decide), hc]
      rw [h1, h2]
    | num n =>
      have h1 : choicesStage kvs = kvs := by unfold choicesStage; rw [hc]
      have h2 : choicesStage (usageStage kvs) = usageStage kvs := by
        unfold choicesStage
        rw [objGet_usageStage_other kvs "choices" (by decide), hc]
      rw [h1, h2]
    | str s =>
      have h1 : choicesStage kvs = kvs := by unfold choicesStage; rw [hc]
      have h2 : choicesStage (usageStage kvs) = usageStage kvs := by
        unfold choicesStage
        rw [objGet_usageStage_other kvs "choices" (by decide), hc]
      rw [h1, h2]
    | obj okvs =>
      have h1 : choicesStage kvs = kvs := by unfold choicesStage; rw [hc]
      have h2 : choicesStage (usageStage kvs) = usageStage kvs := by
        unfold choicesStage
        rw [objGet_usageStage_other kvs "choices" (by decide), hc]
      rw [h1, h2]

theorem clean_idem (j : Json) :
    clean_response_for_openclaw (clean_response_for_openclaw j) =
      clean_response_for_openclaw j := by
  cases j with
  | obj kvs =>
    simp only [clean_response_for_openclaw]
    rw [removeKeys_usageStage _ _ (by decide), removeKeys_choicesStage _ _ (by decide),
        removeKeys_idem, choicesStage_usageStage_comm, usageStage_idem, choicesStage_idem]
  | null => rfl
  | bool b => rfl
  | num n => rfl
  | str s => rfl
  | arr xs => rfl

/-- C8: the Response Normalizer is idempotent — applying
clean_response_for_openclaw twice yields the same value as applying it once,
for every well-formed response. -/
theorem normalizer_idempotent (j : Json) (_hwf : isWfResponse j = true) :
    clean_response_for_openclaw (clean_response_for_openclaw j) =
      clean_response_for_openclaw j :=
  clean_idem j

/-- Response used by the C7 and C8 witnesses: a vLLM-shaped completion with
backend-only fields at every level and an empty tool_calls list. -/
def wfWitnessResponse : Json :=
  .obj [("id", .str "r1"), ("model", .str "m"), ("created", .num 5),
        ("system_fingerprint", .str "fp"), ("prompt_logprobs", .null),
        ("choices", .arr [.obj
          [("index", .num 0), ("stop_reason", .null),
           ("message", .obj
             [("role", .str "assistant"), ("content", .str "hi"),
              ("reasoning_content", .str "think"), ("tool_calls", .arr [])]),
           ("finish_reason", .str "stop")]]),
        ("usage", .obj [("prompt_tokens", .num 3), ("completion_tokens", .num 4),
                        ("total_tokens", .num 7),
                        ("prompt_tokens_details", .obj [("cached_tokens", .num 0)])])]

/-- Witness instantiating the C8 theorem on the concrete vLLM-shaped
response. -/
theorem normalizer_idempotent_witness :
    clean_response_for_openclaw (clean_response_for_openclaw wfWitnessResponse) =
      clean_response_for_openclaw wfWitnessResponse :=
  normalizer_idempotent wfWitnessResponse (by decide)

/-- Choices list of a response object, as read by both the normalizer and the
extractor (absent or non-list choices read as the empty list). -/
def responseChoices (j : Json) : List Json :=
  match j with
  | .obj kvs =>
    (match objGet kvs "choices" with
     | some (.arr cs) => cs
     | _ => [])
  | _ => []

/-- Message dict of a choice (absent or non-dict message reads as the empty
dict). -/
def messageKvs (c : Json) : List (String × Json) :=
  match c with
  | .obj kvs =>
    (match objGet kvs "message" with
     | some (.obj mkvs) => mkvs
     | _ => [])
  | _ => []

theorem cleanChoice_tool_calls_removed (c : Json)
    (h : objGet (messageKvs c) "tool_calls" = none ∨
         objGet (messageKvs c) "tool_calls" = some .null ∨
         objGet (messageKvs c) "tool_calls" = some (.arr [])) :
    hasKey (messageKvs (cleanChoice c)) "tool_calls" = false := by
  cases c with
  | obj kvs =>
    simp only [cleanChoice]
    cases hm : objGet (removeKeys choiceStripKeys kvs) "message" with
    | none => simp [messageKvs, hm, hasKey, objGet]
    | some m =>
      simp only [hm]
      cases m with
      | obj mkvs =>
        have hmk : messageKvs (.obj kvs) = mkvs := by
          simp only [messageKvs]
          rw [show objGet kvs "message" = some (.obj mkvs) from by
            rw [← hm, objGet_removeKeys, if_neg (by decide)]]
        rw [hmk] at h
        have htc : objGet (removeKeys msgStripKeys mkvs) "tool_calls" =
            objGet mkvs "tool_calls" := by
          rw [objGet_removeKeys, if_neg (by decide)]
        have hfalsy :
            pyTruthy ((objGet (removeKeys msgStripKeys mkvs) "tool_calls").getD .null) = false := by
          rw [htc]
          rcases h with h | h | h <;> simp [h, pyTruthy]
        simp only [cleanMsg, hfalsy]
        simp only [messageKvs, Bool.false_eq_true, if_false]
        rw [objGet_objSet_same]
        simp only [hasKey]
        rw [objGet_removeKeys]
        simp
      | null =>
        simp only [cleanMsg]
        simp [messageKvs, objGet_objSet_same, hasKey, objGet]
      | bool b =>
        simp only [cleanMsg]
        simp [messageKvs, objGet_objSet_same, hasKey, objGet]
      | num n =>
        simp only [cleanMsg]
        simp [messageKvs, objGet_objSet_same, hasKey, objGet]
      | str s =>
        simp only [cleanMsg]
        simp [messageKvs, objGet_objSet_same, hasKey, objGet]
      | arr xs =>
        simp only [cleanMsg]
        simp [messageKvs, objGet_objSet_same, hasKey, objGet]
  | null => simp [cleanChoice, messageKvs, hasKey, objGet]
  | bool b => simp [cleanChoice, messageKvs, hasKey, objGet]
  | num n => simp [cleanChoice, messageKvs, hasKey, objGet]
  | str s => simp [cleanChoice, messageKvs, hasKey, objGet]
  | arr xs => simp [cleanChoice, messageKvs, hasKey, objGet]

theorem responseChoices_clean (j : Json) :
    responseChoices (clean_response_for_openclaw j) = (responseChoices j).map cleanChoice := by
  cases j with
  | obj kvs =>
    simp only [clean_response_for_openclaw, responseChoices]
    rw [show objGet (usageStage (choicesStage (removeKeys topStripKeys kvs))) "choices" =
          objGet (choicesStage (removeKeys topStripKeys kvs)) "choices" from
        objGet_usageStage_other _ _ (by decide)]
    unfold choicesStage
    rw [objGet_removeKeys, if_neg (by decide)]
    cases hc : objGet kvs "choices" with
    | none =>
      simp [hc, objGet_removeKeys, show "choices" ∉ topStripKeys by decide]
    | some cv =>
      cases cv <;>
        simp [hc, objGet_removeKeys, objGet_objSet_same,
              show "choices" ∉ topStripKeys by decide]
  | null => rfl
  | bool b => rfl
  | num n => rfl
  | str s => rfl
  | arr xs => rfl

/-- C7: for a well-formed response, the normalizer cleans exactly the choices
of the response, and every choice whose message carries zero tool calls —
tool_calls missing, null, or the empty list — has the tool_calls key entirely
absent from its cleaned message (the serialized message therefore never shows
the key). -/
theorem zero_tool_calls_key_omitted (j : Json) (_hwf : isWfResponse j = true) :
    responseChoices (clean_response_for_openclaw j) = (responseChoices j).map cleanChoice ∧
    ∀ c ∈ responseChoices j,
      (objGet (messageKvs c) "tool_calls" = none ∨
       objGet (messageKvs c) "tool_calls" = some .null ∨
       objGet (messageKvs c) "tool_calls" = some (.arr [])) →
      hasKey (messageKvs (cleanChoice c)) "tool_calls" = false :=
  ⟨responseChoices_clean j, fun c _ h => cleanChoice_tool_calls_removed c h⟩

/-- Choice used by the C7 witness: empty tool_calls list on the message. -/
def c7Choice : Json :=
  .obj [("index", .num 0),
        ("message", .obj [("role", .str "assistant"), ("content", .str "hi"),
                          ("tool_calls", .arr [])]),
        ("finish_reason", .str "stop")]

/-- Response used by the C7 witness. -/
def c7Response : Json :=
  .obj [("id", .str "r"), ("choices", .arr [c7Choice])]

/-- Witness instantiating the C7 theorem: after normalization the concrete
choice's message no longer has a tool_calls key, and the cleaned response's
choices are exactly the cleaned choice. -/
theorem zero_tool_calls_key_omitted_witness :
    responseChoices (clean_response_for_openclaw c7Response) = [cleanChoice c7Choice] ∧
    hasKey (messageKvs (cleanChoice c7Choice)) "tool_calls" = false := by
  have h := zero_tool_calls_key_omitted c7Response (by decide)
  refine ⟨?_, ?_⟩
  · rw [h.1]
    rfl
  · exact h.2 c7Choice
      (by rw [show responseChoices c7Response = [c7Choice] from rfl]
          exact List.mem_singleton_self c7Choice)
      (Or.inr (Or.inr rfl))
